import Mathlib

/-!
Shallow embedding of the AMD (answering machine detection) service in
`src/python-service/app.py`, and proofs about its classification pipeline.

The embedding covers:
* `parse_wav` — the PCM waveform decoder (8-bit unsigned / 16-bit signed,
  stereo handled by taking every other sample);
* the decision combiner inside `predict_huggingface` (keyword rules merged
  with the model vote);
* `predict_gemini` — the remote adapter: credential check, response-text
  parsing (brace-delimited JSON extraction, keyword heuristic fallback,
  API-error fallback) and the final label/confidence mapping.

Python floats of the code are modelled as rationals: every constant involved
(`1/128`, `1/32768`, `0.85`, `0.7`, `0.75`, `0.8`, `0.5`) and every decoded
integer sample are exactly representable in binary floating point, so the
rational model computes the same values the Python code does.
-/

namespace AMD

/-! ### Python string helpers

`word in text` in Python is substring containment; `str.lower()` maps
ASCII upper-case letters to lower-case (all strings reasoned about here are
ASCII).  Brace characters are written via `Char.ofNat` codes. -/

/-- The character `\x7b`. -/
def lbrace : Char := Char.ofNat 123

/-- The character `\x7d`. -/
def rbrace : Char := Char.ofNat 125

/-- Substring containment on character lists: Python's `pat in s`. -/
def containsList (pat : List Char) : List Char → Bool
  | [] => pat.isEmpty
  | c :: t => pat.isPrefixOf (c :: t) || containsList pat t

/-- Python's `pat in s` on strings. -/
def strContains (s pat : String) : Bool :=
  containsList pat.data s.data

/-- Python's `s.lower()` (ASCII fragment). -/
def pyLower (s : String) : String :=
  String.mk (s.data.map Char.toLower)

/-- Whitespace characters removed by Python's `str.strip()` (ASCII
fragment): space, tab, newline, carriage return, vertical tab, form
feed. -/
def isStripChar (c : Char) : Bool :=
  c = ' ' ∨ c = '\t' ∨ c = '\n' ∨ c = '\r' ∨ c = Char.ofNat 11 ∨ c = Char.ofNat 12

/-- Drop leading whitespace from a character list. -/
def dropWs : List Char → List Char
  | [] => []
  | c :: t => if isStripChar c then dropWs t else c :: t

/-- Python's `s.strip()` (ASCII whitespace fragment): drop trailing then
leading whitespace. -/
def pyStrip (s : String) : String :=
  String.mk (dropWs (dropWs s.data.reverse).reverse)

/-! ### Waveform decoder — `parse_wav` (app.py lines 62-84)

The `wave` stdlib module is the boundary of the embedding: it hands
`parse_wav` the raw frame bytes and the three header fields.  A `WavData`
value is exactly that hand-off: frame bytes (each `< 256`), declared sample
rate, channel count, and per-sample width in bytes (`1` = 8-bit, `2` =
16-bit, as in `wave.getsampwidth`). -/

structure WavData where
  frames : List ℕ
  sampleRate : ℕ
  nChannels : ℕ
  sampWidth : ℕ

/-- 8-bit decode: `(v - 128) / 128.0` (line 73). -/
def decode8 (v : ℕ) : ℚ :=
  ((v : ℚ) - 128) / 128

/-- 16-bit decode: `v / 32768.0` (line 77). -/
def decode16 (v : ℤ) : ℚ :=
  (v : ℚ) / 32768

/-- Two's-complement reading of a 16-bit little-endian byte pair, as
`np.frombuffer(frames, dtype=np.int16)` performs it. -/
def toSigned16 (u : ℕ) : ℤ :=
  if u < 32768 then (u : ℤ) else (u : ℤ) - 65536

/-- Group the frame bytes into little-endian 16-bit signed samples.
`np.frombuffer` raises on a buffer whose size is not a multiple of the
element size, which the `none` branch models. -/
def toInt16Samples : List ℕ → Option (List ℤ)
  | [] => some []
  | [_] => none
  | b0 :: b1 :: rest => (toInt16Samples rest).map (fun t => toSigned16 (b0 + 256 * b1) :: t)

/-- `audio_data[::2]` — every other element starting at index 0 (line 82). -/
def everyOther : List ℚ → List ℚ
  | [] => []
  | [x] => [x]
  | x :: _ :: rest => x :: everyOther rest

/-- The sample-width dispatch of `parse_wav` (lines 70-79), before the
channel handling: 8-bit and 16-bit PCM decode, any other width raises
`ValueError("Unsupported sample width: ...")`. -/
def fullDecode (w : WavData) : Except String (List ℚ) :=
  if w.sampWidth = 1 then
    .ok (w.frames.map decode8)
  else if w.sampWidth = 2 then
    match toInt16Samples w.frames with
    | some l => .ok (l.map decode16)
    | none => .error "buffer size must be a multiple of element size"
  else
    .error "Unsupported sample width"

/-- `parse_wav` (lines 62-84): decode by sample width, then, when the
container declares 2 channels, keep every other sample; return the samples
with the declared sample rate. -/
def parse_wav (w : WavData) : Except String (List ℚ × ℕ) :=
  match fullDecode w with
  | .error e => .error e
  | .ok audio =>
      .ok ((if w.nChannels = 2 then everyOther audio else audio), w.sampleRate)

/-! ### Decision combiner — `predict_huggingface` (app.py lines 116-128) -/

/-- The keyword rule of line 118: the transcription contains one of
`"please"`, `"leave"`, `"message"`, `"voicemail"`. -/
def hasKeyword (transcription : String) : Bool :=
  ["please", "leave", "message", "voicemail"].any (fun word => strContains transcription word)

/-- The combiner of lines 116-128: keyword match forces `"voicemail"` and
floors the confidence at `0.85`; otherwise the label defaults to `"human"`,
overridden to the model's vote only when the confidence exceeds `0.7`. -/
def combineDecision (transcription : String) (predicted_class : ℕ) (confidence : ℚ) :
    String × ℚ :=
  if hasKeyword transcription then
    ("voicemail", max confidence (85/100))
  else if predicted_class = 1 ∧ confidence > 7/10 then
    ("human", confidence)
  else if predicted_class = 0 ∧ confidence > 7/10 then
    ("voicemail", confidence)
  else
    ("human", confidence)

/-! ### Remote adapter — `predict_gemini` (app.py lines 190-307)

The network is the boundary of this part of the embedding: the outcome of
the primary attempt (`genai.upload_file` + `model.generate_content`) is an
oracle parameter — either the response text or a raised error message — and
the success of the later degraded text-only call is a boolean.  Everything
downstream of the oracle (credential check, brace-delimited JSON
extraction, `json.loads`, keyword heuristic, the API-error fallback dict
and the final label/confidence mapping) is embedded from the source. -/

/-- The JSON values `json.loads` can place in the parsed response dict
(the flat fragment reachable through the brace-search below: no nested
objects or arrays occur in a match, which contains no closing brace). -/
inductive JsonVal where
  | JStr : String → JsonVal
  | JNum : ℚ → JsonVal
  | JBool : Bool → JsonVal
  | JNull : JsonVal
deriving DecidableEq, Repr

/-- Characters up to the first `\x7d` of the list: `some body` when a
closing brace exists (`body` excludes it), `none` otherwise. -/
def takeToRBrace : List Char → Option (List Char)
  | [] => none
  | c :: t =>
      if c = rbrace then some []
      else (takeToRBrace t).map (fun body => c :: body)

/-- `re.search(r'\x7b[^\x7d]+\x7d', text)` on a character list: the
leftmost substring consisting of an opening brace, at least one
non-closing-brace character, and a closing brace (line 262). -/
def braceSearchList : List Char → Option (List Char)
  | [] => none
  | c :: t =>
      if c = lbrace then
        match takeToRBrace t with
        | some body =>
            if body.isEmpty then braceSearchList t
            else some (lbrace :: body ++ [rbrace])
        | none => braceSearchList t
      else braceSearchList t

/-- `re.search(r'\x7b[^\x7d]+\x7d', text)` on strings, returning the
matched group. -/
def braceSearch (s : String) : Option String :=
  (braceSearchList s.data).map String.mk

/-! #### `json.loads` on a brace match (flat-object fragment)

Recursive descent over the matched characters.  The fragment covers flat
objects whose keys are escape-free string literals and whose values are
escape-free string literals, decimal numbers with optional sign and
fractional part, `true`, `false` or `null`; on anything else the parser
reports failure, which the pipeline treats as the `json.loads` exception. -/

/-- Skip JSON whitespace. -/
def skipWs : List Char → List Char
  | [] => []
  | c :: t => if c = ' ' ∨ c = '\t' ∨ c = '\n' ∨ c = '\r' then skipWs t else c :: t

/-- Parse a string literal body after the opening quote, up to the closing
quote (no escape sequences). -/
def scanStringBody : List Char → Option (List Char × List Char)
  | [] => none
  | c :: t =>
      if c = '\"' then some ([], t)
      else if c = '\\' then none
      else (scanStringBody t).map (fun r => (c :: r.1, r.2))

/-- Take the maximal digit run at the head of the list. -/
def scanDigits : List Char → List Char × List Char
  | [] => ([], [])
  | c :: t =>
      if c.isDigit then
        let r := scanDigits t
        (c :: r.1, r.2)
      else ([], c :: t)

/-- Natural-number value of a digit run. -/
def digitsVal : List Char → ℕ
  | [] => 0
  | ds => ds.foldl (fun acc c => 10 * acc + (c.toNat - 48)) 0

/-- Parse a decimal JSON number: optional minus sign, integer digits,
optional fractional digits. -/
def scanNumber (cs : List Char) : Option (ℚ × List Char) :=
  let (neg, cs₁) :=
    match cs with
    | c :: t => if c = '-' then (true, t) else (false, cs)
    | [] => (false, cs)
  match scanDigits cs₁ with
  | ([], _) => none
  | (ds, rest) =>
      let intPart : ℚ := (digitsVal ds : ℚ)
      let (value, rest₂) :=
        match rest with
        | c :: t =>
            if c = '.' then
              match scanDigits t with
              | ([], _) => (none, rest)
              | (fs, rest') =>
                  (some (intPart + (digitsVal fs : ℚ) / (10 ^ fs.length : ℚ)), rest')
            else (some intPart, rest)
        | [] => (some intPart, rest)
      match value with
      | none => none
      | some v => some ((if neg then -v else v), rest₂)

/-- Parse one JSON value of the flat fragment. -/
def scanValue (cs : List Char) : Option (JsonVal × List Char) :=
  match cs with
  | [] => none
  | c :: t =>
      if c = '\"' then
        (scanStringBody t).map (fun r => (JsonVal.JStr (String.mk r.1), r.2))
      else if c.isDigit ∨ c = '-' then
        (scanNumber cs).map (fun r => (JsonVal.JNum r.1, r.2))
      else if ['t', 'r', 'u', 'e'].isPrefixOf cs then
        some (JsonVal.JBool true, cs.drop 4)
      else if ['f', 'a', 'l', 's', 'e'].isPrefixOf cs then
        some (JsonVal.JBool false, cs.drop 5)
      else if ['n', 'u', 'l', 'l'].isPrefixOf cs then
        some (JsonVal.JNull, cs.drop 4)
      else none

/-- Parse one `"key": value` pair. -/
def scanPair (cs : List Char) : Option ((String × JsonVal) × List Char) :=
  match skipWs cs with
  | [] => none
  | c :: t =>
      if c = '\"' then
        match scanStringBody t with
        | none => none
        | some (key, rest) =>
            match skipWs rest with
            | c' :: rest' =>
                if c' = ':' then
                  (scanValue (skipWs rest')).map (fun r => ((String.mk key, r.1), r.2))
                else none
            | [] => none
      else none

/-- Parse `pair (',' pair)*` followed by the closing brace and the end of
the input; `fuel` bounds the recursion by the input length. -/
def scanPairs (fuel : ℕ) (cs : List Char) : Option (List (String × JsonVal)) :=
  match fuel with
  | 0 => none
  | fuel' + 1 =>
      match scanPair cs with
      | none => none
      | some (kv, rest) =>
          match skipWs rest with
          | [c] => if c = rbrace then some [kv] else none
          | c :: rest' =>
              if c = ',' then (scanPairs fuel' rest').map (fun l => kv :: l)
              else none
          | [] => none

/-- `json.loads` applied to a brace-search match (flat-object fragment):
`some dict` on a valid flat object, `none` for the raised
`json.JSONDecodeError`. -/
def jsonLoads (s : String) : Option (List (String × JsonVal)) :=
  match s.data with
  | c :: t =>
      if c = lbrace then
        match skipWs t with
        | [c'] => if c' = rbrace then some [] else none
        | rest => scanPairs rest.length rest
      else none
  | [] => none

/-- Last-binding lookup with a default: Python `dict.get(k, dflt)` on the
dict `json.loads` builds, where a later duplicate key overrides an earlier
one. -/
def dictGet (d : List (String × JsonVal)) (k : String) (dflt : JsonVal) : JsonVal :=
  match d.reverse.find? (fun kv => kv.1 = k) with
  | some kv => kv.2
  | none => dflt

/-- Python `float(s)` on a string (decimal fragment with optional sign and
fractional part, surrounding whitespace allowed); `none` for the raised
`ValueError`. -/
def pyFloatOfString (s : String) : Option ℚ :=
  match scanNumber (skipWs s.data) with
  | some (v, rest) => if skipWs rest = [] then some v else none
  | none => none

/-- Python `float(v)` on a JSON value: numbers pass through, numeric
strings are parsed, booleans become `1`/`0`, `null` raises. -/
def pyFloat : JsonVal → Option ℚ
  | .JNum q => some q
  | .JStr s => pyFloatOfString s
  | .JBool b => some (if b then 1 else 0)
  | .JNull => none

/-! #### The response pipeline -/

/-- The keyword-heuristic label/confidence assignment of lines 267-273:
start from `("human", 0.5)`; `"voicemail"` or `"machine"` in the lowered
text sets `("voicemail", 0.75)`; otherwise `"human"` in the lowered text
keeps the label and raises the confidence to `0.80`. -/
def heuristicLC (lower : String) : String × ℚ :=
  if strContains lower "voicemail" || strContains lower "machine" then
    ("voicemail", 75/100)
  else if strContains lower "human" then
    ("human", 80/100)
  else
    ("human", 1/2)

/-- The keyword-heuristic dict built when no brace-delimited substring is
found in the response text (lines 266-279). -/
def heuristicDict (text : String) : List (String × JsonVal) :=
  [("label", .JStr (heuristicLC (pyLower text)).1),
   ("confidence", .JNum (heuristicLC (pyLower text)).2),
   ("reasoning", .JStr text)]

/-- The dict built by the API-error fallback branch (lines 288-292). -/
def fallbackDict (err : String) : List (String × JsonVal) :=
  [("label", .JStr "human"), ("confidence", .JNum (1/2)),
   ("reasoning", .JStr ("Fallback due to API error: " ++ err))]

/-- The inner `try` of lines 244-283: on a primary-attempt error the
exception propagates to the inner handler; on a response text, strip it,
search for a brace-delimited substring, `json.loads` it when found
(a decode error also propagates to the inner handler), and otherwise build
the keyword-heuristic dict. -/
def innerAttempt (primary : Except String String) : Except String (List (String × JsonVal)) :=
  match primary with
  | .error e => .error e
  | .ok raw =>
      let text := pyStrip raw
      match braceSearch text with
      | some m =>
          match jsonLoads m with
          | some d => .ok d
          | none => .error "json decode error"
      | none => .ok (heuristicDict text)

/-- `label = result.get("label", "human").lower()`; an out-of-vocabulary
lowered value becomes `"human"` (lines 295-297). -/
def normLabel (s : String) : String :=
  let l := pyLower s
  if l = "human" ∨ l = "voicemail" then l else "human"

/-- The JSON body of the remote endpoint's `200` response. -/
structure GeminiResponse where
  label : String
  confidence : ℚ
  raw : List (String × JsonVal)
deriving DecidableEq, Repr

/-- The mapping of lines 294-303 applied to the result dict: lower and
normalize the label (a non-string label raises), convert the confidence
with `float` (an unconvertible value raises); a raise here reaches the
outer handler and becomes HTTP 500. -/
def mapResult (d : List (String × JsonVal)) : Except ℕ GeminiResponse :=
  match dictGet d "label" (.JStr "human") with
  | .JStr s =>
      match pyFloat (dictGet d "confidence" (.JNum (1/2))) with
      | some c => .ok ⟨normLabel s, c, d⟩
      | none => .error 500
  | _ => .error 500

/-- Observable I/O steps of the remote endpoint, in order. -/
inductive GEvent where
  | readAudio
  | networkAttempt
  | deleteAttempt
  | fallbackAttempt
deriving DecidableEq, Repr

/-- `predict_gemini` (lines 190-307).  `apiKey` is `os.getenv`'s view of
`GEMINI_API_KEY`; `primary` is the network oracle for the primary attempt;
`fallbackOk` tells whether the degraded text-only call succeeds.  Returns
the HTTP outcome (error value = status code) together with the trace of
I/O steps performed. -/
def predict_gemini (apiKey : Option String) (primary : Except String String)
    (fallbackOk : Bool) : Except ℕ GeminiResponse × List GEvent :=
  match apiKey with
  | none => (.error 503, [])
  | some key =>
      if key = "" then (.error 503, [])
      else
        match innerAttempt primary with
        | .ok d =>
            (mapResult d, [.readAudio, .networkAttempt, .deleteAttempt])
        | .error e =>
            if fallbackOk then
              (mapResult (fallbackDict e), [.readAudio, .networkAttempt, .fallbackAttempt])
            else
              (.error 500, [.readAudio, .networkAttempt, .fallbackAttempt])

/-! ## Helper lemmas -/

/-- Index `i` of `everyOther l` is index `2 * i` of `l`. -/
theorem everyOther_get? : ∀ (l : List ℚ) (i : ℕ), (everyOther l).get? i = l.get? (2 * i)
  | [], i => by simp [everyOther]
  | [x], 0 => rfl
  | [x], i + 1 => by
      rw [show 2 * (i + 1) = 2 * i + 1 + 1 from by ring]
      simp [everyOther]
  | x :: y :: rest, 0 => rfl
  | x :: y :: rest, i + 1 => by
      rw [show 2 * (i + 1) = 2 * i + 1 + 1 from by ring]
      show (everyOther rest).get? i = rest.get? (2 * i)
      exact everyOther_get? rest i

/-- Every element of `everyOther l` is an element of `l`. -/
theorem mem_everyOther : ∀ (l : List ℚ) (x : ℚ), x ∈ everyOther l → x ∈ l
  | [], _, h => by simp [everyOther] at h
  | [_], x, h => by simpa [everyOther] using h
  | a :: b :: rest, x, h => by
      rcases (by simpa [everyOther] using h : x = a ∨ x ∈ everyOther rest) with h' | h'
      · simp [h']
      · have := mem_everyOther rest x h'
        simp [this]

/-- An 8-bit PCM byte decodes into `[-1, 1]`. -/
theorem decode8_bounds (b : ℕ) (hb : b < 256) : -1 ≤ decode8 b ∧ decode8 b ≤ 1 := by
  have hb' : (b : ℚ) ≤ 255 := by exact_mod_cast Nat.le_of_lt_succ hb
  have h0 : (0 : ℚ) ≤ (b : ℚ) := by positivity
  unfold decode8
  constructor
  · rw [le_div_iff₀ (by norm_num : (0 : ℚ) < 128)]
    linarith
  · rw [div_le_iff₀ (by norm_num : (0 : ℚ) < 128)]
    linarith

/-- A 16-bit PCM sample in range decodes into `[-1, 1]`. -/
theorem decode16_bounds (v : ℤ) (h1 : -32768 ≤ v) (h2 : v ≤ 32767) :
    -1 ≤ decode16 v ∧ decode16 v ≤ 1 := by
  have h1' : (-32768 : ℚ) ≤ (v : ℚ) := by exact_mod_cast h1
  have h2' : (v : ℚ) ≤ 32767 := by exact_mod_cast h2
  unfold decode16
  constructor
  · rw [le_div_iff₀ (by norm_num : (0 : ℚ) < 32768)]
    linarith
  · rw [div_le_iff₀ (by norm_num : (0 : ℚ) < 32768)]
    linarith

/-- `toSigned16` of a 16-bit unsigned value lies in the signed 16-bit
range. -/
theorem toSigned16_bounds (u : ℕ) (hu : u ≤ 65535) :
    -32768 ≤ toSigned16 u ∧ toSigned16 u ≤ 32767 := by
  unfold toSigned16
  split <;> omega

/-- Every sample `toInt16Samples` produces from bytes `< 256` lies in the
signed 16-bit range. -/
theorem toInt16Samples_bounds : ∀ (bs : List ℕ) (l : List ℤ),
    toInt16Samples bs = some l → (∀ b ∈ bs, b < 256) →
    ∀ v ∈ l, -32768 ≤ v ∧ v ≤ 32767
  | [], l, h, _, v, hv => by
      simp [toInt16Samples] at h
      subst h
      simp at hv
  | [_], l, h, _, v, hv => by
      simp [toInt16Samples] at h
  | b0 :: b1 :: rest, l, h, hb, v, hv => by
      rcases Option.map_eq_some'.mp (by simpa [toInt16Samples] using h) with ⟨t, ht, rfl⟩
      have hb0 : b0 < 256 := hb b0 (by simp)
      have hb1 : b1 < 256 := hb b1 (by simp)
      rcases List.mem_cons.mp hv with h' | h'
      · subst h'
        exact toSigned16_bounds _ (by omega)
      · exact toInt16Samples_bounds rest t ht (fun b hb' => hb b (by simp [hb'])) v h'

/-- Every sample of a successful `fullDecode` lies in `[-1, 1]`. -/
theorem fullDecode_bounds (w : WavData) (full : List ℚ)
    (hb : ∀ b ∈ w.frames, b < 256) (hd : fullDecode w = .ok full) :
    ∀ s ∈ full, -1 ≤ s ∧ s ≤ 1 := by
  intro s hs
  unfold fullDecode at hd
  split at hd
  · have hfull : w.frames.map decode8 = full := Except.ok.inj hd
    rcases List.mem_map.mp (by rw [hfull]; exact hs) with ⟨b, hbmem, hbe⟩
    exact hbe ▸ decode8_bounds b (hb b hbmem)
  · split at hd
    · cases hl : toInt16Samples w.frames with
      | none => rw [hl] at hd; exact absurd hd (by simp)
      | some l =>
          rw [hl] at hd
          have hfull : l.map decode16 = full := Except.ok.inj hd
          rcases List.mem_map.mp (by rw [hfull]; exact hs) with ⟨v, hvmem, hve⟩
          have hbd := toInt16Samples_bounds w.frames l hl hb v hvmem
          exact hve ▸ decode16_bounds v hbd.1 hbd.2
    · exact absurd hd (by simp)

/-- `parse_wav` unfolded on a successful `fullDecode`. -/
theorem parse_wav_of_fullDecode (w : WavData) (full : List ℚ)
    (hd : fullDecode w = .ok full) :
    parse_wav w = .ok ((if w.nChannels = 2 then everyOther full else full), w.sampleRate) := by
  unfold parse_wav
  rw [hd]

/-! ## Claims about the waveform decoder -/

/-- **C7.** For every well-formed PCM input, the decoder maps each 8-bit
sample byte `v` to `(v - 128)/128` and each 16-bit signed sample `v` to
`v/32768` (sample width is in bytes: `1` = 8 bits, `2` = 16 bits);
consequently every decoded sample lies in `[-1, 1]`; and `128` decodes to
`0`, `0` to `-1`, `255` to `127/128`. -/
theorem c7_decoder_sample_mapping (w : WavData) (hb : ∀ b ∈ w.frames, b < 256) :
    (w.sampWidth = 1 →
      parse_wav w = .ok ((if w.nChannels = 2 then everyOther (w.frames.map decode8)
        else w.frames.map decode8), w.sampleRate)) ∧
    (∀ l, w.sampWidth = 2 → toInt16Samples w.frames = some l →
      parse_wav w = .ok ((if w.nChannels = 2 then everyOther (l.map decode16)
        else l.map decode16), w.sampleRate)) ∧
    (∀ samples rate, parse_wav w = .ok (samples, rate) →
      ∀ s ∈ samples, -1 ≤ s ∧ s ≤ 1) ∧
    decode8 128 = 0 ∧ decode8 0 = -1 ∧ decode8 255 = 127 / 128 := by
  refine ⟨?_, ?_, ?_, by norm_num [decode8], by norm_num [decode8], by norm_num [decode8]⟩
  · intro h1
    exact parse_wav_of_fullDecode w _ (by simp [fullDecode, h1])
  · intro l h2 hl
    exact parse_wav_of_fullDecode w _ (by simp [fullDecode, h2, hl])
  · intro samples rate hok s hs
    unfold parse_wav at hok
    cases hd : fullDecode w with
    | error e => rw [hd] at hok; exact absurd hok (by simp)
    | ok full =>
        rw [hd] at hok
        have hsp : samples = (if w.nChannels = 2 then everyOther full else full) :=
          congrArg Prod.fst (Except.ok.inj hok).symm
        have hmem : s ∈ full := by
          by_cases h2 : w.nChannels = 2
          · exact mem_everyOther full s (by simpa [hsp, h2] using hs)
          · simpa [hsp, h2] using hs
        exact fullDecode_bounds w full hb hd s hmem

/-- **C7 witness.** Concrete 8-bit mono input: bytes `0, 128, 255` decode to
`-1, 0, 127/128`. -/
theorem c7_witness :
    parse_wav ⟨[0, 128, 255], 8000, 1, 1⟩ = .ok ([-1, 0, 127 / 128], 8000) := by
  have h := c7_decoder_sample_mapping ⟨[0, 128, 255], 8000, 1, 1⟩ (by decide)
  have h1 := h.1 rfl
  norm_num [decode8] at h1
  exact h1

/-- **C8.** For every PCM input declaring exactly 2 channels that decodes
successfully, the decoder returns the samples at even indices `0, 2, 4, …`
of the interleaved stream — the first channel only, never an average. -/
theorem c8_stereo_first_channel (w : WavData) (full : List ℚ)
    (h2 : w.nChannels = 2) (hd : fullDecode w = .ok full) :
    parse_wav w = .ok (everyOther full, w.sampleRate) ∧
    ∀ i, (everyOther full).get? i = full.get? (2 * i) := by
  refine ⟨?_, everyOther_get? full⟩
  have := parse_wav_of_fullDecode w full hd
  rwa [if_pos h2] at this

/-- **C8 witness.** Concrete 8-bit stereo input: of the four interleaved
samples only indices 0 and 2 are returned. -/
theorem c8_witness :
    parse_wav ⟨[0, 128, 10, 20], 8000, 2, 1⟩ =
      .ok ([decode8 0, decode8 10], 8000) := by
  have h := c8_stereo_first_channel ⟨[0, 128, 10, 20], 8000, 2, 1⟩
    [decode8 0, decode8 128, decode8 10, decode8 20] rfl rfl
  exact h.1

/-- **C9.** For every PCM input whose header declares a per-sample width
other than 8 or 16 bits (width in bytes other than 1 or 2), decoding fails
with an error: no sample sequence is returned. -/
theorem c9_unsupported_width (w : WavData) (h1 : w.sampWidth ≠ 1) (h2 : w.sampWidth ≠ 2) :
    parse_wav w = .error "Unsupported sample width" := by
  unfold parse_wav fullDecode
  rw [if_neg h1, if_neg h2]

/-- **C9 witness.** A declared width of 3 bytes (24-bit) is rejected. -/
theorem c9_witness :
    parse_wav ⟨[1, 2, 3], 8000, 1, 3⟩ = .error "Unsupported sample width" :=
  c9_unsupported_width ⟨[1, 2, 3], 8000, 1, 3⟩ (by decide) (by decide)

/-- **C10.** For every PCM input declaring a channel count other than 1 or
2 that decodes successfully, the decoder raises no error and performs no
channel selection: it returns the full interleaved stream at the declared
sample rate. -/
theorem c10_other_channel_counts (w : WavData) (full : List ℚ)
    (_hc1 : w.nChannels ≠ 1) (hc2 : w.nChannels ≠ 2) (hd : fullDecode w = .ok full) :
    parse_wav w = .ok (full, w.sampleRate) := by
  have := parse_wav_of_fullDecode w full hd
  rwa [if_neg hc2] at this

/-- **C10 witness.** A 3-channel 8-bit input is returned whole, as though
mono. -/
theorem c10_witness :
    parse_wav ⟨[0, 128, 255], 8000, 3, 1⟩ =
      .ok ([decode8 0, decode8 128, decode8 255], 8000) :=
  c10_other_channel_counts ⟨[0, 128, 255], 8000, 3, 1⟩
    [decode8 0, decode8 128, decode8 255] (by decide) (by decide) rfl

/-! ## Claims about the decision combiner -/

/-- **C1.** Decision-combiner precedence: a keyword match forces
`("voicemail", max c 0.85)` — for every predicted class, including a
confident human vote; otherwise a confident (`c > 0.7`) voicemail vote
(`predicted_class = 0`) gives `("voicemail", c)`; in every remaining case
(`predicted_class = 1`, or `c ≤ 0.7`) the result is `("human", c)` with
the confidence unchanged. -/
theorem c1_combiner_precedence (t : String) (pc : ℕ) (c : ℚ) (_hpc : pc = 0 ∨ pc = 1) :
    (hasKeyword t = true → combineDecision t pc c = ("voicemail", max c (85/100))) ∧
    (hasKeyword t = false → pc = 0 → 7/10 < c → combineDecision t pc c = ("voicemail", c)) ∧
    (hasKeyword t = false → (pc = 1 ∨ c ≤ 7/10) → combineDecision t pc c = ("human", c)) := by
  refine ⟨fun hk => ?_, fun hk h0 hc => ?_, fun hk h => ?_⟩
  · simp [combineDecision, hk]
  · simp [combineDecision, hk, h0, hc]
  · rcases h with h1 | hc
    · by_cases hc : 7/10 < c
      · simp [combineDecision, hk, h1, hc]
      · simp [combineDecision, hk, h1, hc]
    · have hc' : ¬ (7/10 < c) := not_lt.mpr hc
      simp [combineDecision, hk, hc']

/-- **C1 witness.** The three combiner examples of the spec, including the
keyword win against a confident human vote. -/
theorem c1_witness :
    combineDecision "please leave a message" 1 (9/10) = ("voicemail", max (9/10) (85/100)) ∧
    combineDecision "hello there" 0 (95/100) = ("voicemail", 95/100) ∧
    combineDecision "hello there" 1 (3/10) = ("human", 3/10) :=
  ⟨(c1_combiner_precedence "please leave a message" 1 (9/10) (Or.inr rfl)).1 (by decide),
   (c1_combiner_precedence "hello there" 0 (95/100) (Or.inl rfl)).2.1 (by decide) rfl
     (by norm_num),
   (c1_combiner_precedence "hello there" 1 (3/10) (Or.inr rfl)).2.2 (by decide) (Or.inl rfl)⟩

/-! ## Helper lemmas about the remote adapter -/

/-- `predict_gemini` with a non-empty key maps the inner attempt's dict. -/
theorem predict_gemini_ok_inner (key : String) (primary : Except String String) (fb : Bool)
    (d : List (String × JsonVal)) (hk : ¬ key = "") (hin : innerAttempt primary = .ok d) :
    predict_gemini (some key) primary fb =
      (mapResult d, [.readAudio, .networkAttempt, .deleteAttempt]) := by
  simp only [predict_gemini]
  rw [if_neg hk, hin]

/-- `predict_gemini` with a non-empty key routes an inner-attempt error to
the fallback. -/
theorem predict_gemini_err_inner (key : String) (primary : Except String String) (fb : Bool)
    (e : String) (hk : ¬ key = "") (hin : innerAttempt primary = .error e) :
    predict_gemini (some key) primary fb =
      ((if fb then mapResult (fallbackDict e) else .error 500),
        [.readAudio, .networkAttempt, .fallbackAttempt]) := by
  simp only [predict_gemini]
  rw [if_neg hk, hin]
  cases fb <;> rfl

/-- A primary-attempt error propagates out of the inner attempt. -/
theorem innerAttempt_err (e : String) : innerAttempt (.error e) = .error e := rfl

/-- Without a brace match the inner attempt builds the heuristic dict. -/
theorem innerAttempt_no_match (raw : String) (hnm : braceSearch (pyStrip raw) = none) :
    innerAttempt (.ok raw) = .ok (heuristicDict (pyStrip raw)) := by
  simp only [innerAttempt]
  rw [hnm]

/-- A brace match that is not valid JSON raises inside the inner attempt. -/
theorem innerAttempt_bad_json (raw m : String) (hm : braceSearch (pyStrip raw) = some m)
    (hj : jsonLoads m = none) : innerAttempt (.ok raw) = .error "json decode error" := by
  simp only [innerAttempt, hm, hj]

/-- A brace match that parses yields the parsed dict. -/
theorem innerAttempt_json (raw m : String) (d : List (String × JsonVal))
    (hm : braceSearch (pyStrip raw) = some m) (hj : jsonLoads m = some d) :
    innerAttempt (.ok raw) = .ok d := by
  simp only [innerAttempt, hm, hj]

/-- `mapResult` on the heuristic dict returns the heuristic label and
confidence unchanged. -/
theorem mapResult_heuristicDict (text : String) :
    mapResult (heuristicDict text) =
      .ok ⟨normLabel (heuristicLC (pyLower text)).1, (heuristicLC (pyLower text)).2,
        heuristicDict text⟩ := rfl

/-- The heuristic confidence is one of `0.75`, `0.80`, `0.5`, hence in
`[0, 1]`. -/
theorem heuristicLC_conf_range (lower : String) :
    0 ≤ (heuristicLC lower).2 ∧ (heuristicLC lower).2 ≤ 1 := by
  unfold heuristicLC
  split_ifs <;> norm_num

/-- `normLabel` always lands in the output vocabulary. -/
theorem normLabel_vocab (s : String) : normLabel s = "human" ∨ normLabel s = "voicemail" := by
  by_cases h : (pyLower s = "human" ∨ pyLower s = "voicemail")
  · have he : normLabel s = pyLower s := by simp [normLabel, h]
    rw [he]
    exact h
  · have he : normLabel s = "human" := by simp [normLabel, h]
    rw [he]
    exact Or.inl rfl

/-- Every successful `mapResult` label is `"human"` or `"voicemail"`. -/
theorem mapResult_label_vocab (d : List (String × JsonVal)) (r : GeminiResponse)
    (h : mapResult d = .ok r) : r.label = "human" ∨ r.label = "voicemail" := by
  unfold mapResult at h
  cases hg : dictGet d "label" (.JStr "human") with
  | JStr s =>
      rw [hg] at h
      cases hf : pyFloat (dictGet d "confidence" (.JNum (1/2))) with
      | some c =>
          rw [hf] at h
          have hr : r = ⟨normLabel s, c, d⟩ := (Except.ok.inj h).symm
          rw [hr]
          exact normLabel_vocab s
      | none => rw [hf] at h; exact absurd h (by simp)
  | JNum q => rw [hg] at h; exact absurd h (by simp)
  | JBool b => rw [hg] at h; exact absurd h (by simp)
  | JNull => rw [hg] at h; exact absurd h (by simp)

/-- A successful `mapResult` passes the dict's `"confidence"` value through
`float` unchanged — no clamping. -/
theorem mapResult_confidence (d : List (String × JsonVal)) (r : GeminiResponse)
    (h : mapResult d = .ok r) :
    pyFloat (dictGet d "confidence" (.JNum (1/2))) = some r.confidence := by
  unfold mapResult at h
  cases hg : dictGet d "label" (.JStr "human") with
  | JStr s =>
      rw [hg] at h
      cases hf : pyFloat (dictGet d "confidence" (.JNum (1/2))) with
      | some c =>
          rw [hf] at h
          have hr : r = ⟨normLabel s, c, d⟩ := (Except.ok.inj h).symm
          rw [hr]
      | none => rw [hf] at h; exact absurd h (by simp)
  | JNum q => rw [hg] at h; exact absurd h (by simp)
  | JBool b => rw [hg] at h; exact absurd h (by simp)
  | JNull => rw [hg] at h; exact absurd h (by simp)

/-! ## Claims about the remote adapter -/

/-- **C2 counterexample.** When the primary attempt fails and the fallback
branch is taken, the returned label is `"human"`, not `"Unknown"`: the
claim's `Unknown` label never appears. -/
theorem c2_counterexample :
    (predict_gemini (some "key") (.error "network down") true).1 =
      .ok ⟨"human", 1/2, fallbackDict "network down"⟩ ∧
    ("human" : String) ≠ "Unknown" := by
  exact ⟨rfl, by decide⟩

/-- **C2 (amended).** When the primary attempt fails and the fallback
branch is taken, `classify_remote` returns — without raising — a result
labelled `"human"` with confidence `0.5`; a service error is raised only
for the unrecoverable conditions: missing credential (HTTP 503, before any
work) and failure of the fallback attempt itself (HTTP 500). -/
theorem c2_fallback_returns_human (key err : String) (hk : key ≠ "") :
    (predict_gemini (some key) (.error err) true).1 =
      .ok ⟨"human", 1/2, fallbackDict err⟩ ∧
    (predict_gemini (some key) (.error err) false).1 = .error 500 ∧
    (∀ primary fb, (predict_gemini none primary fb).1 = .error 503) := by
  refine ⟨?_, ?_, fun primary fb => rfl⟩
  · rw [predict_gemini_err_inner key (.error err) true err hk (innerAttempt_err err)]
    rfl
  · rw [predict_gemini_err_inner key (.error err) false err hk (innerAttempt_err err)]
    rfl

/-- **C2 witness.** The amended claim at a concrete key and error. -/
theorem c2_witness :
    (predict_gemini (some "key") (.error "boom") true).1 =
      .ok ⟨"human", 1/2, fallbackDict "boom"⟩ :=
  (c2_fallback_returns_human "key" "boom" (by decide)).1

/-- **C6.** With the credential absent, `classify_remote` fails with HTTP
503 for every input, with an empty I/O trace: the uploaded audio is never
read and no network call is attempted. -/
theorem c6_missing_credential_fails_fast (primary : Except String String) (fb : Bool) :
    predict_gemini none primary fb = (.error 503, []) ∧
    GEvent.readAudio ∉ (predict_gemini none primary fb).2 ∧
    GEvent.networkAttempt ∉ (predict_gemini none primary fb).2 := by
  exact ⟨rfl, by simp [predict_gemini], by simp [predict_gemini]⟩

/-- **C3 counterexample.** A response text in which a brace-delimited
substring is found but is not valid JSON does NOT take the keyword
heuristic: the `json.loads` exception reaches the API-error handler and the
result is `("human", 0.5)`, although the text contains `"voicemail"` (the
claim demands `("voicemail", 0.75)` there). -/
theorem c3_counterexample :
    braceSearch (pyStrip "\x7bnot json\x7d voicemail") = some "\x7bnot json\x7d" ∧
    jsonLoads "\x7bnot json\x7d" = none ∧
    (predict_gemini (some "key") (.ok "\x7bnot json\x7d voicemail") true).1 =
      .ok ⟨"human", 1/2, fallbackDict "json decode error"⟩ ∧
    (predict_gemini (some "key") (.ok "\x7bnot json\x7d voicemail") true).1 ≠
      .ok ⟨"voicemail", 75/100, heuristicDict (pyStrip "\x7bnot json\x7d voicemail")⟩ := by
  refine ⟨rfl, rfl, rfl, ?_⟩
  intro h
  have e1 : (predict_gemini (some "key") (.ok "\x7bnot json\x7d voicemail") true).1 =
      .ok ⟨"human", 1/2, fallbackDict "json decode error"⟩ := rfl
  rw [e1] at h
  simp at h

/-- **C3 (amended).** The keyword heuristic over the raw response text
(`"voicemail"`/`"machine"` → `("voicemail", 0.75)`; else `"human"` →
`("human", 0.80)`; else `("human", 0.5)`, containment checked on the
lowered text) applies exactly when NO brace-delimited substring is found;
when one is found but is not valid JSON, the parse exception is caught by
the API-error fallback instead, yielding `("human", 0.5)`. -/
theorem c3_heuristic_on_no_json (key raw : String) (fb : Bool) (hk : key ≠ "")
    (hnm : braceSearch (pyStrip raw) = none) :
    ((strContains (pyLower (pyStrip raw)) "voicemail"
        || strContains (pyLower (pyStrip raw)) "machine") = true →
      (predict_gemini (some key) (.ok raw) fb).1 =
        .ok ⟨"voicemail", 75/100, heuristicDict (pyStrip raw)⟩) ∧
    ((strContains (pyLower (pyStrip raw)) "voicemail"
        || strContains (pyLower (pyStrip raw)) "machine") = false →
      strContains (pyLower (pyStrip raw)) "human" = true →
      (predict_gemini (some key) (.ok raw) fb).1 =
        .ok ⟨"human", 80/100, heuristicDict (pyStrip raw)⟩) ∧
    ((strContains (pyLower (pyStrip raw)) "voicemail"
        || strContains (pyLower (pyStrip raw)) "machine") = false →
      strContains (pyLower (pyStrip raw)) "human" = false →
      (predict_gemini (some key) (.ok raw) fb).1 =
        .ok ⟨"human", 1/2, heuristicDict (pyStrip raw)⟩) ∧
    (∀ raw' m, braceSearch (pyStrip raw') = some m → jsonLoads m = none →
      (predict_gemini (some key) (.ok raw') true).1 =
        .ok ⟨"human", 1/2, fallbackDict "json decode error"⟩) := by
  have hstep : (predict_gemini (some key) (.ok raw) fb).1 =
      mapResult (heuristicDict (pyStrip raw)) := by
    rw [predict_gemini_ok_inner key (.ok raw) fb _ hk (innerAttempt_no_match raw hnm)]
  refine ⟨fun hcond => ?_, fun hc1 hc2 => ?_, fun hc1 hc2 => ?_, fun raw' m hm hj => ?_⟩
  · have hLC : heuristicLC (pyLower (pyStrip raw)) = ("voicemail", 75/100) := by
      simp [heuristicLC, hcond]
    rw [hstep, mapResult_heuristicDict, hLC]
    rfl
  · have hLC : heuristicLC (pyLower (pyStrip raw)) = ("human", 80/100) := by
      simp [heuristicLC, hc1, hc2]
    rw [hstep, mapResult_heuristicDict, hLC]
    rfl
  · have hLC : heuristicLC (pyLower (pyStrip raw)) = ("human", 1/2) := by
      simp [heuristicLC, hc1, hc2]
    rw [hstep, mapResult_heuristicDict, hLC]
    rfl
  · rw [predict_gemini_err_inner key (.ok raw') true _ hk
      (innerAttempt_bad_json raw' m hm hj)]
    rfl

/-- **C3 witness.** A response with no parseable JSON but containing
`"voicemail"` yields `("voicemail", 0.75)`. -/
theorem c3_witness :
    (predict_gemini (some "key") (.ok "this is a voicemail greeting") true).1 =
      .ok ⟨"voicemail", 75/100, heuristicDict (pyStrip "this is a voicemail greeting")⟩ :=
  (c3_heuristic_on_no_json "key" "this is a voicemail greeting" true (by decide)
    (by decide)).1 (by decide)

/-- **C4 counterexample.** In the JSON-parse branch the parsed confidence
is returned unclamped: a remote response declaring confidence `5` yields a
`ClassificationResult` with confidence `5`, outside `[0, 1]`. -/
theorem c4_counterexample :
    (predict_gemini (some "key")
        (.ok "\x7b\"label\": \"human\", \"confidence\": 5\x7d") true).1 =
      .ok ⟨"human", 5, [("label", .JStr "human"), ("confidence", .JNum 5)]⟩ ∧
    ¬ ((5 : ℚ) ≤ 1) := by
  constructor
  · rfl
  · norm_num

/-- **C4 (amended).** The local combiner maps a model confidence in
`[0, 1]` to a confidence in `[0, 1]`, and the remote heuristic and
fallback branches always return a confidence in `[0, 1]`; but the remote
JSON-parse branch passes the parsed confidence value through `float`
unclamped, so a value outside `[0, 1]` is returned as-is. -/
theorem c4_confidence_range :
    (∀ (t : String) (pc : ℕ) (c : ℚ), 0 ≤ c → c ≤ 1 →
      0 ≤ (combineDecision t pc c).2 ∧ (combineDecision t pc c).2 ≤ 1) ∧
    (∀ (key raw : String) (fb : Bool) (r : GeminiResponse) (tr : List GEvent),
      key ≠ "" → braceSearch (pyStrip raw) = none →
      predict_gemini (some key) (.ok raw) fb = (.ok r, tr) →
      0 ≤ r.confidence ∧ r.confidence ≤ 1) ∧
    (∀ (key err : String) (r : GeminiResponse) (tr : List GEvent),
      key ≠ "" → predict_gemini (some key) (.error err) true = (.ok r, tr) →
      0 ≤ r.confidence ∧ r.confidence ≤ 1) ∧
    (∀ (d : List (String × JsonVal)) (r : GeminiResponse), mapResult d = .ok r →
      pyFloat (dictGet d "confidence" (.JNum (1/2))) = some r.confidence) := by
  refine ⟨?_, ?_, ?_, mapResult_confidence⟩
  · intro t pc c h0 h1
    unfold combineDecision
    split_ifs
    · exact ⟨le_max_of_le_left h0, max_le h1 (by norm_num)⟩
    · exact ⟨h0, h1⟩
    · exact ⟨h0, h1⟩
    · exact ⟨h0, h1⟩
  · intro key raw fb r tr hk hnm hok
    have h1 := predict_gemini_ok_inner key (.ok raw) fb _ hk (innerAttempt_no_match raw hnm)
    rw [hok] at h1
    have h2 : Except.ok r = mapResult (heuristicDict (pyStrip raw)) :=
      congrArg Prod.fst h1
    rw [mapResult_heuristicDict] at h2
    have hr := Except.ok.inj h2
    rw [hr]
    exact heuristicLC_conf_range _
  · intro key err r tr hk hok
    have h1 := predict_gemini_err_inner key (.error err) true err hk (innerAttempt_err err)
    rw [hok] at h1
    have h2 : Except.ok r =
        Except.ok (⟨"human", 1/2, fallbackDict err⟩ : GeminiResponse) :=
      congrArg Prod.fst h1
    have hr := Except.ok.inj h2
    rw [hr]
    norm_num

/-- **C4 witness.** The local combiner keeps confidence `1/2` inside
`[0, 1]`. -/
theorem c4_witness :
    0 ≤ (combineDecision "hello" 0 (1/2)).2 ∧ (combineDecision "hello" 0 (1/2)).2 ≤ 1 :=
  c4_confidence_range.1 "hello" 0 (1/2) (by norm_num) (by norm_num)

/-- **C5 counterexample.** The label is lowercased before the vocabulary
check, so the case variant `"Voicemail"` is normalized to `"voicemail"`,
not to `"human"` as the claim states. -/
theorem c5_counterexample :
    (predict_gemini (some "key")
        (.ok "\x7b\"label\": \"Voicemail\", \"confidence\": 1\x7d") true).1 =
      .ok ⟨"voicemail", 1, [("label", .JStr "Voicemail"), ("confidence", .JNum 1)]⟩ ∧
    ("voicemail" : String) ≠ "human" := by
  constructor
  · rfl
  · decide

/-- **C5 (amended).** The remote label value is lowercased first, and only
a value whose lowercase form is not exactly `"human"` or `"voicemail"` is
normalized to `"human"` (so `"maybe"` → `"human"`, while `"Voicemail"` →
`"voicemail"`); consequently every successful remote result carries a label
in `{"human", "voicemail"}`. -/
theorem c5_label_normalization :
    (∀ s : String, pyLower s ≠ "human" → pyLower s ≠ "voicemail" → normLabel s = "human") ∧
    (∀ (apiKey : Option String) (primary : Except String String) (fb : Bool)
        (r : GeminiResponse) (tr : List GEvent),
      predict_gemini apiKey primary fb = (.ok r, tr) →
      r.label = "human" ∨ r.label = "voicemail") := by
  constructor
  · intro s h1 h2
    have h : ¬ (pyLower s = "human" ∨ pyLower s = "voicemail") := by
      rintro (h | h)
      exacts [h1 h, h2 h]
    simp [normLabel, h]
  · intro apiKey primary fb r tr hok
    cases apiKey with
    | none => simp [predict_gemini] at hok
    | some key =>
        by_cases hk : key = ""
        · simp [predict_gemini, hk] at hok
        · cases hin : innerAttempt primary with
          | ok d =>
              have h1 := predict_gemini_ok_inner key primary fb d hk hin
              rw [hok] at h1
              exact mapResult_label_vocab d r (congrArg Prod.fst h1).symm
          | error e =>
              have h1 := predict_gemini_err_inner key primary fb e hk hin
              rw [hok] at h1
              have h2 : Except.ok r = (if fb then mapResult (fallbackDict e) else .error 500) :=
                congrArg Prod.fst h1
              cases fb with
              | false => simp at h2
              | true =>
                  rw [if_pos rfl] at h2
                  exact mapResult_label_vocab _ r h2.symm

/-- **C5 witness.** The out-of-vocabulary label `"maybe"` normalizes to
`"human"`. -/
theorem c5_witness : normLabel "maybe" = "human" :=
  c5_label_normalization.1 "maybe" (by decide) (by decide)

end AMD
